import Mathlib

/-
Verification of the CulinAIry Agentic recipe/meal-planning service
(backend sources: `backend/main.py`, `backend/utils/loader.py`,
`backend/utils/embeddings_helper.py`, `backend/utils/ai_agent.py`).

The Python code is shallowly embedded: recipe dictionaries become a `Recipe`
structure with `Option`-valued fields for keys that may be absent, JSON
values become the `Json` inductive, network calls become explicit outcome
parameters, `random.choices` takes an explicit choice function, and Python
exceptions become `Except` results.  NumPy float vectors are modelled as
exact rational vectors.
-/

namespace Culinairy

/-- Python exception kinds that the modelled code can raise. -/
inductive PyErr
  | typeError
  | indexError
  | valueError
deriving DecidableEq

instance {ε α : Type} [DecidableEq ε] [DecidableEq α] : DecidableEq (Except ε α) :=
  fun a b =>
    match a, b with
    | .ok x, .ok y =>
      if h : x = y then isTrue (by rw [h]) else isFalse (by simp [h])
    | .error x, .error y =>
      if h : x = y then isTrue (by rw [h]) else isFalse (by simp [h])
    | .ok _, .error _ => isFalse (fun hc => Except.noConfusion hc)
    | .error _, .ok _ => isFalse (fun hc => Except.noConfusion hc)

/-- Python/JSON values, as produced by `json.loads` and consumed by the code. -/
inductive Json
  | null
  | bool (b : Bool)
  | num (q : ℚ)
  | str (s : String)
  | arr (xs : List Json)
  | obj (kvs : List (String × Json))

/-- Lookup of a key in a decoded JSON object (Python `data[k]` / `k in data`). -/
def jsonLookup (kvs : List (String × Json)) (k : String) : Option Json :=
  (kvs.find? (fun p => p.1 == k)).map (fun p => p.2)

/-- An ingredient record: only the keys the backend reads are modelled
(`name`, `image`, and the derived `image_url`). -/
structure Ingredient where
  name : Option String
  image : Option String
  image_url : Option String
deriving DecidableEq

/-- A cooking-step record: only the keys the backend reads are modelled
(`image` and the derived `image_url`). -/
structure Step where
  image : Option String
  image_url : Option String
deriving DecidableEq

/-- A recipe dictionary.  Every key the backend accesses is a field; `Option`
encodes possible absence of the key (Python `dict.get` returning `None`). -/
structure Recipe where
  id : Option String
  id_legacy : Option String
  title : Option String
  description : Option String
  cuisine : Option String
  image_url : Option String
  dish_image_url : Option String
  ingredients : Option (List Ingredient)
  steps : Option (List Step)
  utensils : Option (List String)
  tags : Option (List String)
deriving DecidableEq

/-- Truthiness of an optional string (Python `if s:`): false for `None` and
for the empty string. -/
def pyTruthy : Option String → Bool
  | none => false
  | some s => !(s == "")

/-- Python `a or b` on two optional strings: `a` if truthy, else `b`. -/
def pyOr (a b : Option String) : Option String :=
  if pyTruthy a then a else b

/-- Python equality between an optional string field (`recipe.get(k)`) and a
JSON value used as a lookup key: strings compare by value, an absent field
(`None`) equals JSON `null`, everything else is unequal. -/
def pyEqId (field : Option String) (j : Json) : Bool :=
  match field, j with
  | some s, .str t => s == t
  | none, .null => true
  | _, _ => false

/-- The static base URL used by `loader.py` when deriving image URLs. -/
def BASE_URL : String := "http://localhost:8000"

/-- Embeds `os.path.basename`: the part of the path after the last slash. -/
def basename (p : String) : String :=
  String.mk ((p.data.reverse.takeWhile (fun c => c ≠ '/')).reverse)

/-- Derived display URL: when the raw image reference is truthy, joins the
base URL, the folder, and the basename of the reference; otherwise the
previous value of the derived field is kept (no assignment happens). -/
def optImageURL (folder : String) (img : Option String) (old : Option String) :
    Option String :=
  match img with
  | none => old
  | some s =>
    if s = "" then old
    else some (BASE_URL ++ "/images/" ++ folder ++ "/" ++ basename s)

/-- Update of one step record by `attach_recipe_images`. -/
def updStep (st : Step) : Step :=
  { st with image_url := optImageURL ("cooking_step") st.image st.image_url }

/-- Update of one ingredient record by `attach_recipe_images`. -/
def updIngredient (ing : Ingredient) : Ingredient :=
  { ing with image_url := optImageURL ("ingredient") ing.image ing.image_url }

/-- Embeds `loader.attach_recipe_images`.  The Python function does
`recipe = recipe.copy()` — a SHALLOW copy — so the step and ingredient
dictionaries remain shared between the copy and the caller's original
dictionary, and the in-place writes `recipe["steps"][idx]["image_url"] = ...`
and `recipe["ingredients"][idx]["image_url"] = ...` are visible through both.
The result is the pair `(value returned, state of the original recipe after
the call)`: both share the updated step/ingredient records, while the
`dish_image_url` assignment touches only the copy (it writes a top-level key
of the copied dictionary). -/
def attach_recipe_images (recipe : Recipe) : Recipe × Recipe :=
  let steps2 := recipe.steps.map (fun l => l.map updStep)
  let ings2 := recipe.ingredients.map (fun l => l.map updIngredient)
  ({ recipe with
      dish_image_url := optImageURL ("dish") recipe.image_url recipe.dish_image_url
      steps := steps2
      ingredients := ings2 },
   { recipe with
      steps := steps2
      ingredients := ings2 })

/-- Outcome of opening and JSON-decoding the recipe file: the file may be
missing (`FileNotFoundError`), undecodable (`json.JSONDecodeError`), or hold
a decoded JSON value. -/
inductive FileRead
  | missing
  | decodeError
  | content (j : Json)

/-- Embeds `loader.load_recipes_from_file`.  Missing files and JSON decode
errors are caught and yield an empty list; a decoded value that is a list is
returned as is; a decoded object with a `recipes` key returns that key's
value; any other decoded value raises `ValueError`, which is NOT caught. -/
def load_recipes_from_file : FileRead → Except PyErr Json
  | .missing => .ok (.arr [])
  | .decodeError => .ok (.arr [])
  | .content j =>
    match j with
    | .obj kvs =>
      match jsonLookup kvs ("recipes") with
      | some v => .ok v
      | none => .error .valueError
    | .arr xs => .ok (.arr xs)
    | _ => .error .valueError

/-- Embeds `loader.get_recipe_by_id`: first recipe whose `id_legacy` or `id`
equals the lookup key; Python returns the falsy `{}` on a miss, modelled as
`none`. -/
def get_recipe_by_id (recipes : List Recipe) (recipe_id : Json) : Option Recipe :=
  recipes.find? (fun r => pyEqId r.id_legacy recipe_id || pyEqId r.id recipe_id)

/-- Embedding vectors.  NumPy float arrays are modelled as exact
integer-coordinate vectors: cosine similarity is invariant under scaling a
vector by a positive constant, so integer coordinates represent any
rational-coordinate embedding without changing any similarity ranking. -/
abbrev Vec := List ℤ

/-- Dot product of two vectors (`np.dot` for equal-length 1-D arrays; callers
guard the unequal-length case, where NumPy raises). -/
def dotQ (a b : Vec) : ℤ :=
  ((a.zip b).map (fun p => p.1 * p.2)).sum

/-- A scored index entry `(recipe id, d, n)` with `d = np.dot(q, e)` and
`n = np.dot(e, e)`.  The Python code scores the entry with the float
`d / (norm(q) * norm(e))`; for a fixed query `q` with positive norm,
comparing two such floats is equivalent to comparing `d / sqrt(n)`, and —
since `t ↦ t * |t|` is strictly monotone — to comparing `d * |d| / n`, which
the model compares exactly by cross-multiplication (see `sGT`). -/
abbrev Scored := String × ℤ × ℤ

/-- Exact strict comparison of the similarity scores of two entries:
`x` is strictly more similar than `y` iff `d_x*|d_x|/n_x > d_y*|d_y|/n_y`,
cross-multiplied (valid for the positive norms the index holds).  This is
the comparison the float sort key `lambda x: x[1]` induces. -/
def sGT (x y : Scored) : Bool :=
  decide (y.2.1 * |y.2.1| * x.2.2 < x.2.1 * |x.2.1| * y.2.2)

/-- One step of the stable descending insertion sort: `x` is placed before
the first element it beats strictly, hence after every earlier element with
an equal score — exactly the stable behaviour of Python
`list.sort(key=..., reverse=True)`. -/
def insertScored (x : Scored) : List Scored → List Scored
  | [] => [x]
  | y :: ys => if sGT x y then x :: y :: ys else y :: insertScored x ys

/-- Stable sort of the scored entries by strictly decreasing score,
processing entries in index (insertion) order, the model of
`similarities.sort(key=lambda x: x[1], reverse=True)` (a stable sort). -/
def sortScored (l : List Scored) : List Scored :=
  l.foldl (fun acc x => insertScored x acc) []

/-- Python dict assignment `d[k] = v` on an insertion-ordered dict: an
existing key keeps its position and gets the new value, a new key is
appended. -/
def dictInsert : List (String × Vec) → String → Vec → List (String × Vec)
  | [], k, v => [(k, v)]
  | (k0, v0) :: rest, k, v =>
    if k0 = k then (k, v) :: rest else (k0, v0) :: dictInsert rest k v

/-- Embeds `embeddings_helper.add_recipe_embedding`: the embedding-service
outcome is the `emb` parameter (`none` models a failed `get_embedding` call,
which is skipped silently).  Returns the new index and the success flag. -/
def add_recipe_embedding (index : List (String × Vec)) (recipe_id : String)
    (emb : Option Vec) : List (String × Vec) × Bool :=
  match emb with
  | none => (index, false)
  | some v => (dictInsert index recipe_id v, true)

/-- Builds the embedding index by inserting each entry in order, as the
startup loop in `main.py` does (`for r in RECIPES: add_recipe_embedding ...`). -/
def buildIndex (entries : List (String × Option Vec)) : List (String × Vec) :=
  entries.foldl (fun idx e => (add_recipe_embedding idx e.1 e.2).1) []

/-- Embeds `embeddings_helper.find_similar_recipes`.  The query-embedding
outcome is the `queryEmb` parameter (`none` models a failed `get_embedding`
call, whose exception is caught inside `get_embedding`).  On a failed query
embedding or an empty index the result is the empty list.  `np.dot` raises
`ValueError` when a stored vector's length differs from the query's.
Otherwise every entry is scored, the scored list is sorted stably by
descending similarity (Python `list.sort` is stable, and dict iteration is
in insertion order), and the first `top_k` ids are returned. -/
def find_similar_recipes (queryEmb : Option Vec) (index : List (String × Vec))
    (top_k : Nat) : Except PyErr (List String) :=
  match queryEmb with
  | none => .ok []
  | some q =>
    match index with
    | [] => .ok []
    | _ :: _ =>
      if index.any (fun p => p.2.length != q.length) then .error .valueError
      else
        .ok (((sortScored
          (index.map (fun p => (p.1, dotQ q p.2, dotQ p.2 p.2)))).take top_k).map Prod.fst)

/-- Outcome of the one HTTP request made by `ai_agent.query_nim`: the
transport may fail (connection error / timeout), or a status code arrives
with a body that may or may not decode as JSON. -/
inductive NimResponse
  | transportError
  | response (status : Nat) (body : Except PyErr Json)

/-- Extraction of `data["choices"][0]["message"]["content"]`; `none` stands
for any exception raised on the way (`KeyError`, `IndexError`, `TypeError`),
all of which the caller's `except` block catches. -/
def extractContent (data : Json) : Option Json :=
  match data with
  | .obj kvs =>
    match jsonLookup kvs ("choices") with
    | some (.arr (c0 :: _)) =>
      match c0 with
      | .obj m =>
        match jsonLookup m ("message") with
        | some (.obj mm) => jsonLookup mm ("content")
        | _ => none
      | _ => none
    | _ => none
  | _ => none

/-- Embeds `ai_agent.query_nim`.  `endpoint_set` and `key_set` model the
truthiness of the two environment variables.  `requests.raise_for_status`
raises exactly for status codes in `[400, 600)`.  Every exception inside the
`try` block is caught and mapped to the distinguished failure string; a
fully well-shaped success returns the `content` field verbatim (whatever
JSON value it holds). -/
def query_nim (endpoint_set key_set : Bool) (resp : NimResponse) : Json :=
  if endpoint_set && key_set then
    match resp with
    | .transportError => .str ("NIM model unavailable. Using fallback.")
    | .response status body =>
      if 400 ≤ status ∧ status < 600 then
        .str ("NIM model unavailable. Using fallback.")
      else
        match body with
        | .error _ => .str ("NIM model unavailable. Using fallback.")
        | .ok data =>
          match extractContent data with
          | some c => c
          | none => .str ("NIM model unavailable. Using fallback.")
  else .str ("NIM not configured. Using fallback.")

/-- A validated `/plan-meals` request body (`MealRequest` in `main.py`). -/
structure MealRequest where
  meals_per_day : Nat
  days : Nat
  preferences : List String
deriving DecidableEq

/-- The pydantic field constraints on `MealRequest`:
`meals_per_day` in `(0, 5]`, `days` in `(0, 7]`. -/
def ValidRequest (r : MealRequest) : Prop :=
  0 < r.meals_per_day ∧ r.meals_per_day ≤ 5 ∧ 0 < r.days ∧ r.days ≤ 7

/-- The semantic query string built from the preferences
(`", ".join(request.preferences)` with a default for the empty list). -/
def buildUserQuery (prefs : List String) : String :=
  if prefs = [] then "balanced weekly meals"
  else String.intercalate (", ") prefs

/-- The reduced recipe projection sent to the reasoning service
(Step 4 of `plan_meals`). -/
structure ContextEntry where
  cid : Option String
  title : Option String
  description : String
  ingredients : List (Option String)
  utensils : List String
  tags : List String
deriving DecidableEq

/-- Builds one context entry from a resolved recipe. -/
def contextEntry (r : Recipe) : ContextEntry :=
  ⟨pyOr r.id_legacy r.id, r.title, r.description.getD (""),
   (r.ingredients.getD []).map (fun i => i.name),
   r.utensils.getD [], r.tags.getD []⟩

/-- Embeds `random.choices(population, k=k)`: draws `k` elements with
replacement, positions chosen by the explicit `pick` function; raises
`IndexError` on an empty population when `k > 0` and returns `[]` when
`k = 0`. -/
def randomChoices {α : Type} (pick : Nat → Nat) (pool : List α) (k : Nat) :
    Except PyErr (List α) :=
  if k = 0 then .ok []
  else
    match pool with
    | [] => .error .indexError
    | p :: ps =>
      .ok ((List.range k).map (fun i => (p :: ps).getD (pick i % (p :: ps).length) p))

/-- Python iteration `for x in v` over a JSON value: lists yield elements,
strings yield one-character strings, objects yield their keys, and other
values raise `TypeError`. -/
def pyIterList : Json → Except PyErr (List Json)
  | .arr xs => .ok xs
  | .str s => .ok (s.toList.map (fun c => Json.str (String.singleton c)))
  | .obj kvs => .ok (kvs.map (fun kv => Json.str kv.1))
  | _ => .error .typeError

/-- Step 6 of `plan_meals`: the ids to select.  `aiParse` is the outcome of
`json.loads(query_nim(prompt))` inside the `try` block (`none` models any
exception there, including the failure strings of `query_nim`, which are not
valid JSON); on `none` the `except` branch draws `meals_per_day * days` ids
at random from the retrieved ids.  Iterating a parsed non-iterable value
raises `TypeError` at the `for` loop, outside any `try`. -/
def selected_ids_of (aiParse : Option Json) (pickSel : Nat → Nat)
    (similar : List String) (needed : Nat) : Except PyErr (List Json) :=
  match aiParse with
  | some j => pyIterList j
  | none => randomChoices pickSel (similar.map Json.str) needed

/-- The fallback padding of `plan_meals` (Step 7): when fewer recipes than
needed were resolved, draw the shortfall with replacement from the pool of
resolved retrieved recipes. -/
def pad_selection (pickPad : Nat → Nat) (pool : List Recipe) (needed : Nat)
    (sel : List Recipe) : Except PyErr (List Recipe) :=
  if sel.length < needed then
    (randomChoices pickPad pool (needed - sel.length)).map (fun extra => sel ++ extra)
  else .ok sel

/-- One day bucket of the produced plan. -/
structure DayPlan where
  day : Nat
  meals : List Recipe
deriving DecidableEq

/-- The `summary` object of the `/plan-meals` response. -/
structure PlanSummary where
  days : Nat
  meals_per_day : Nat
  preferences : List String
  retrieved_recipes : Nat
deriving DecidableEq

/-- The `/plan-meals` success response. -/
structure PlanResponse where
  summary : PlanSummary
  plan : List DayPlan
deriving DecidableEq

/-- How a `/plan-meals` request can fail: an `HTTPException` raised by the
handler (status and detail), or an uncaught Python exception (surfaced by
the framework as a server error). -/
inductive PlanError
  | http (status : Nat) (detail : String)
  | py (e : PyErr)
deriving DecidableEq

/-- Step 9 of `plan_meals`: partition the selected recipes into day buckets;
bucket `day` holds the slice `[(day-1)*meals_per_day, day*meals_per_day)`. -/
def build_plan (meals_per_day days : Nat) (recipes : List Recipe) : List DayPlan :=
  (List.range days).map
    (fun i => ⟨i + 1, (recipes.drop (i * meals_per_day)).take meals_per_day⟩)

/-- Result of one `/plan-meals` request together with the number of
embedding-service calls and reasoning-service calls it performed. -/
structure PlanRun where
  result : Except PlanError PlanResponse
  embed_calls : Nat
  nim_calls : Nat
deriving DecidableEq

/-- Embeds the `/plan-meals` handler `main.plan_meals`.  Explicit outcome
parameters: `queryEmb` is the embedding of the query string built from the
preferences (`find_similar_recipes` always embeds the query first, so every
run counts one embedding call); `aiParse` is the outcome of parsing the
reasoning response (see `selected_ids_of`); `pickSel`/`pickPad` drive the two
`random.choices` fallbacks.  There is no preference filter: the preferences
only shape the query string.  An exception from `find_similar_recipes` is
caught and re-raised as HTTP 500; an empty retrieval result raises HTTP 404;
ids unresolvable against the catalog are dropped; a shortfall is padded by
`pad_selection`; finally images are attached and the plan is bucketed by
day. -/
def plan_meals (req : MealRequest) (catalog : List Recipe)
    (index : List (String × Vec)) (queryEmb : Option Vec) (aiParse : Option Json)
    (pickSel pickPad : Nat → Nat) : PlanRun :=
  match find_similar_recipes queryEmb index 5 with
  | .error _ => ⟨.error (.http 500 ("Vector search failed")), 1, 0⟩
  | .ok [] => ⟨.error (.http 404 ("No similar recipes found")), 1, 0⟩
  | .ok (s0 :: srest) =>
    match selected_ids_of aiParse pickSel (s0 :: srest) (req.meals_per_day * req.days) with
    | .error e => ⟨.error (.py e), 1, 1⟩
    | .ok selected_ids =>
      match pad_selection pickPad
          ((s0 :: srest).filterMap (fun r => get_recipe_by_id catalog (.str r)))
          (req.meals_per_day * req.days)
          (selected_ids.filterMap (fun j => get_recipe_by_id catalog j)) with
      | .error e => ⟨.error (.py e), 1, 1⟩
      | .ok sel =>
        ⟨.ok
          { summary :=
              ⟨req.days, req.meals_per_day, req.preferences,
               ((s0 :: srest).filterMap
                 (fun r => (get_recipe_by_id catalog (.str r)).map contextEntry)).length⟩
            plan := build_plan req.meals_per_day req.days
              (sel.map (fun r => (attach_recipe_images r).1)) },
         1, 1⟩

/-- Total number of recipe records across all day buckets of a response. -/
def totalMeals (resp : PlanResponse) : Nat :=
  (resp.plan.map (fun d => d.meals.length)).sum

/-- Python slice stop index: `l[:stop]` keeps indices below
`max(0, len + stop)` for negative `stop` and below `min(stop, len)`
otherwise. -/
def pySliceStop (len : Nat) (stop : Int) : Nat :=
  if stop < 0 then (stop + len).toNat else min stop.toNat len

/-- Python `l[:stop]`. -/
def pySliceTo {α : Type} (l : List α) (stop : Int) : List α :=
  l.take (pySliceStop l.length stop)

/-- Embeds the `/recipes` endpoint `main.list_recipes`:
`[attach_recipe_images(r) for r in RECIPES[:limit]]` (the handler returns the
attached copies). -/
def list_recipes (catalog : List Recipe) (limit : Int) : List Recipe :=
  (pySliceTo catalog limit).map (fun r => (attach_recipe_images r).1)

/-- Case-insensitive character-list prefix test (specification side). -/
def charsStartWith : List Char → List Char → Bool
  | [], _ => true
  | _ :: _, [] => false
  | a :: as, b :: bs => a == b && charsStartWith as bs

/-- Case-insensitive substring test on character lists (specification side). -/
def charsContain (needle : List Char) : List Char → Bool
  | [] => charsStartWith needle []
  | b :: bs => charsStartWith needle (b :: bs) || charsContain needle bs

/-- ASCII lowering of one character (specification side). -/
def lowerChar (c : Char) : Char :=
  if 'A' ≤ c ∧ c ≤ 'Z' then Char.ofNat (c.toNat + 32) else c

/-- Case-insensitive substring containment of `needle` in an optional string,
as the specification's preference filter describes it. -/
def containsCI (hay : Option String) (needle : String) : Bool :=
  match hay with
  | none => false
  | some h => charsContain (needle.data.map lowerChar) (h.data.map lowerChar)

/-- Specification-side hypothesis of claim C2: no catalog recipe's title or
cuisine field contains any of the preference tags (case-insensitive
substring, OR across tags). -/
def noPrefMatch (catalog : List Recipe) (tags : List String) : Bool :=
  catalog.all (fun r =>
    tags.all (fun t => !(containsCI r.title t || containsCI r.cuisine t)))

/-- Real-valued cosine similarity between the query vector and a stored
vector, exactly as the Python float expression
`np.dot(q, v) / (np.linalg.norm(q) * np.linalg.norm(v))` (specification
side; `norm x = sqrt(np.dot(x, x))`). -/
noncomputable def cosSimR (q v : Vec) : ℝ :=
  ((dotQ q v : ℤ) : ℝ) /
    (Real.sqrt ((dotQ q q : ℤ) : ℝ) * Real.sqrt ((dotQ v v : ℤ) : ℝ))

/-- Specification-side ranking relation of claim C4 between two returned ids:
either the first is strictly more similar to the query, or they are equally
similar and the first was inserted into the index earlier. -/
def RankedBy (index : List (String × Vec)) (q : Vec) (a b : String) : Prop :=
  ∀ va vb, (a, va) ∈ index → (b, vb) ∈ index →
    (cosSimR q vb < cosSimR q va ∨
      (cosSimR q va = cosSimR q vb ∧ [a, b].Sublist (index.map Prod.fst)))

/-- Auxiliary real quantity `d / sqrt n` (specification side). -/
noncomputable def rsim (d n : ℤ) : ℝ := (d : ℝ) / Real.sqrt (n : ℝ)

/-- Real value of a similarity score pair `(d, n)`, namely `d * |d| / n`
(specification side; equals `rsim d n * |rsim d n|` for positive `n`). -/
noncomputable def keyR (dn : ℤ × ℤ) : ℝ :=
  (dn.1 : ℝ) * |(dn.1 : ℝ)| / (dn.2 : ℝ)

/-- Sortedness-with-stability relation for the scored list (specification
side): the earlier output entry has a strictly larger score, or the scores
are equal and the earlier output entry already preceded the later one in the
input list `L`. -/
def RL (L : List Scored) (a b : Scored) : Prop :=
  keyR b.2 < keyR a.2 ∨ (keyR a.2 = keyR b.2 ∧ [a, b].Sublist L)

/-- Example two-entry embedding index whose entries have equal cosine
similarity to the query `[1]` (a similarity tie). -/
def exIndex2 : List (String × Vec) :=
  [(("a" : String), ([1] : Vec)), (("b" : String), ([2] : Vec))]

/-- The failure conditions of one `query_nim` HTTP exchange: transport error,
a `raise_for_status` status, an undecodable body, or a body without the
expected `choices[0].message.content` path. -/
def nimFailureCase : NimResponse → Bool
  | .transportError => true
  | .response s body =>
    (decide (400 ≤ s ∧ s < 600)) ||
      (match body with
       | .error _ => true
       | .ok d => (extractContent d).isNone)

/-- Example recipe used as concrete input by witnesses. -/
def exRecipe : Recipe :=
  ⟨some ("r1"), some ("r1"), some ("Pasta"), some ("A pasta dish"), some ("Italian"),
   none, none, none, none, none, none⟩

/-- Example one-recipe catalog. -/
def exCatalog : List Recipe := [exRecipe]

/-- Example one-entry embedding index. -/
def exIndex : List (String × Vec) := [(("r1" : String), ([1] : Vec))]

/-- Example valid request without preferences. -/
def exReq : MealRequest := ⟨1, 1, []⟩

/-- Example valid request with a preference tag matched by no catalog recipe. -/
def exReqVegan : MealRequest := ⟨1, 1, ["vegan"]⟩

/-- Constant choice function driving the modelled `random.choices`. -/
def pick0 : Nat → Nat := fun _ => 0

/-- The plan `plan_meals` produces for `exReq` on the example inputs. -/
def exPlan : PlanResponse := ⟨⟨1, 1, [], 1⟩, [⟨1, [exRecipe]⟩]⟩

/-- The plan `plan_meals` produces for `exReqVegan` on the example inputs. -/
def exPlanVegan : PlanResponse := ⟨⟨1, 1, ["vegan"], 1⟩, [⟨1, [exRecipe]⟩]⟩

/-- Example recipe with one step image and one ingredient image. -/
def exRecipe7 : Recipe :=
  ⟨some ("r7"), none, some ("Soup"), none, none, some ("dish/s.png"),
   none, some [⟨some ("carrot"), some ("ing.png"), none⟩],
   some [⟨some ("step1.png"), none⟩], none, none⟩

/-- Example well-shaped reasoning response body whose `content` field holds a
JSON number instead of a string. -/
def exNimOkBody : Json :=
  .obj [(("choices" : String),
    .arr [.obj [(("message" : String), .obj [(("content" : String), .num 1)])]])]

/-- Example index entries for witnesses about `buildIndex`: two successful
insertions around one failed embedding call. -/
def exEntries : List (String × Option Vec) :=
  [(("a" : String), some ([1] : Vec)), (("c" : String), none),
   (("b" : String), some ([2] : Vec))]

/-- C5: if the embedding-service call for the query fails (`queryEmb = none`,
the exception being caught inside `get_embedding`) or the index holds zero
entries, `find_similar_recipes` returns the empty sequence and raises no
error (the result is `ok`, never `error`). -/
theorem find_similar_empty_on_failure_or_empty_index (qe : Option Vec)
    (index : List (String × Vec)) (k : Nat) (h : qe = none ∨ index = []) :
    find_similar_recipes qe index k = .ok [] := by
  rcases h with h | h
  · subst h; rfl
  · subst h; cases qe <;> rfl

/-- Witness for C5 at a concrete input: the query embedding failed while the
index is nonempty, and the query still returns the empty list without error. -/
theorem find_similar_empty_on_failure_or_empty_index_witness :
    ((none : Option Vec) = none ∨ exIndex = []) ∧
      find_similar_recipes none exIndex 3 = .ok [] :=
  ⟨Or.inl rfl, find_similar_empty_on_failure_or_empty_index none exIndex 3 (Or.inl rfl)⟩

/-- Amended C3: transport-level embedding failures never raise out of
retrieval — `get_embedding` swallows them and `find_similar_recipes` returns
an empty result — so such a request fails with the HTTP 404 "no matches"
outcome before any reasoning call (`nim_calls = 0`), not with a
dependency-error outcome; the HTTP 500 dependency outcome arises only when
`find_similar_recipes` itself raises (e.g. a vector-dimension mismatch); and
an empty retrieval result likewise produces the 404 outcome rather than
proceeding with the full catalog. -/
theorem plan_meals_retrieval_outcomes (req : MealRequest) (catalog : List Recipe)
    (index : List (String × Vec)) (qe : Option Vec) (ai : Option Json)
    (p1 p2 : Nat → Nat) :
    (qe = none → find_similar_recipes qe index 5 = .ok []) ∧
    (find_similar_recipes qe index 5 = .ok [] →
      plan_meals req catalog index qe ai p1 p2 =
        ⟨.error (.http 404 ("No similar recipes found")), 1, 0⟩) ∧
    (∀ e, find_similar_recipes qe index 5 = .error e →
      plan_meals req catalog index qe ai p1 p2 =
        ⟨.error (.http 500 ("Vector search failed")), 1, 0⟩) := by
  refine ⟨?_, ?_, ?_⟩
  · intro h; subst h; rfl
  · intro h; unfold plan_meals; rw [h]
  · intro e h; unfold plan_meals; rw [h]

/-- Witness for the amended C3 at a concrete input: the embedding service
fails on the query, and the request ends in the 404 outcome with no
reasoning call. -/
theorem plan_meals_retrieval_outcomes_witness :
    find_similar_recipes (none : Option Vec) exIndex 5 = .ok [] ∧
    plan_meals exReq exCatalog exIndex none none pick0 pick0 =
      ⟨.error (.http 404 ("No similar recipes found")), 1, 0⟩ :=
  ⟨(plan_meals_retrieval_outcomes exReq exCatalog exIndex none none pick0 pick0).1 rfl,
   (plan_meals_retrieval_outcomes exReq exCatalog exIndex none none pick0 pick0).2.1
     ((plan_meals_retrieval_outcomes exReq exCatalog exIndex none none pick0 pick0).1 rfl)⟩

/-- Counterexample to C3 as stated: when semantic retrieval hits a
transport-level error (`queryEmb = none`, modelling the embedding service
returning a 500), the request does NOT fail with the dependency-error
outcome: it fails with the very "no matches" outcome (HTTP 404) the claim
says is distinct, because `get_embedding` swallows the transport error and
`find_similar_recipes` returns an empty result. -/
theorem plan_meals_transport_error_cex :
    plan_meals exReq exCatalog exIndex none none pick0 pick0 =
      ⟨.error (.http 404 ("No similar recipes found")), 1, 0⟩ ∧
    PlanError.http 404 ("No similar recipes found") ≠
      PlanError.http 500 ("Vector search failed") := by
  exact ⟨rfl, by decide⟩

/-- Helper: every run of `plan_meals` performs exactly one embedding call
(`find_similar_recipes` always embeds the query string first). -/
theorem plan_meals_embed_calls (req : MealRequest) (catalog : List Recipe)
    (index : List (String × Vec)) (qe : Option Vec) (ai : Option Json)
    (p1 p2 : Nat → Nat) :
    (plan_meals req catalog index qe ai p1 p2).embed_calls = 1 := by
  unfold plan_meals
  split
  · rfl
  · rfl
  · split
    · rfl
    · split <;> rfl

/-- Amended C2: the pipeline never filters the catalog by title or cuisine —
preference tags are used only to build the semantic query string
(`", ".join(preferences)`), an embedding call is always made
(`embed_calls = 1`), and the "no matches" outcome (HTTP 404, before any
reasoning call) arises exactly when semantic retrieval returns no
identifiers, irrespective of whether any recipe's title or cuisine contains
a tag. -/
theorem plan_meals_preferences_only_shape_query (req : MealRequest)
    (catalog : List Recipe) (index : List (String × Vec)) (qe : Option Vec)
    (ai : Option Json) (p1 p2 : Nat → Nat) (hpref : req.preferences ≠ []) :
    buildUserQuery req.preferences = String.intercalate (", ") req.preferences ∧
    (plan_meals req catalog index qe ai p1 p2).embed_calls = 1 ∧
    (find_similar_recipes qe index 5 = .ok [] →
      plan_meals req catalog index qe ai p1 p2 =
        ⟨.error (.http 404 ("No similar recipes found")), 1, 0⟩) := by
  refine ⟨?_, plan_meals_embed_calls req catalog index qe ai p1 p2, ?_⟩
  · unfold buildUserQuery
    simp [hpref]
  · intro h; unfold plan_meals; rw [h]

/-- Witness for the amended C2 at a concrete input. -/
theorem plan_meals_preferences_only_shape_query_witness :
    exReqVegan.preferences ≠ [] ∧
    buildUserQuery exReqVegan.preferences =
      String.intercalate (", ") exReqVegan.preferences ∧
    (plan_meals exReqVegan exCatalog exIndex (some [1]) none pick0 pick0).embed_calls = 1 := by
  have h := plan_meals_preferences_only_shape_query exReqVegan exCatalog exIndex
    (some [1]) none pick0 pick0 (by decide)
  exact ⟨by decide, h.1, h.2.1⟩

/-- Counterexample to C2 as stated: with preferences `["vegan"]` and a
catalog in which no recipe's title or cuisine contains "vegan"
(case-insensitive), the pipeline does NOT terminate with a "no matches"
outcome and does NOT avoid network calls: it performs its embedding call
(`embed_calls = 1`), proceeds, and returns a complete plan. -/
theorem plan_meals_no_filter_cex :
    noPrefMatch exCatalog ["vegan"] = true ∧
    plan_meals exReqVegan exCatalog exIndex (some [1]) none pick0 pick0 =
      ⟨.ok exPlanVegan, 1, 1⟩ := by
  exact ⟨by decide, by decide⟩

/-- C7 (code bug evaluation): `attach_recipe_images` does `recipe.copy()`, a
shallow copy, so the step dictionaries stay shared with the caller's recipe
and the in-place `image_url` writes mutate the original: on a recipe with a
step image the original is changed, its step record gains the derived URL,
and the returned copy shares exactly those step records. -/
theorem attach_recipe_images_mutates_input :
    (attach_recipe_images exRecipe7).2 ≠ exRecipe7 ∧
    (attach_recipe_images exRecipe7).2.steps =
      some [⟨some ("step1.png"),
        some ("http://localhost:8000/images/cooking_step/step1.png")⟩] ∧
    (attach_recipe_images exRecipe7).1.steps = (attach_recipe_images exRecipe7).2.steps ∧
    (attach_recipe_images exRecipe7).2.dish_image_url = exRecipe7.dish_image_url := by
  exact ⟨by decide, by decide, rfl, rfl⟩

/-- Amended C8: missing files and JSON-decode failures are caught and degrade
to an empty catalog; a decoded list is returned as is and a decoded object's
`recipes` key is returned as is; but a successfully decoded file of any
other shape raises an uncaught `ValueError` instead of degrading. -/
theorem load_recipes_shapes (f : FileRead) :
    ((f = .missing ∨ f = .decodeError) → load_recipes_from_file f = .ok (.arr [])) ∧
    (∀ xs, f = .content (.arr xs) → load_recipes_from_file f = .ok (.arr xs)) ∧
    (∀ kvs v, f = .content (.obj kvs) → jsonLookup kvs ("recipes") = some v →
      load_recipes_from_file f = .ok v) := by
  refine ⟨?_, ?_, ?_⟩
  · rintro (h | h) <;> subst h <;> rfl
  · intro xs h; subst h; rfl
  · intro kvs v h hk
    subst h
    simp only [load_recipes_from_file]
    rw [hk]

/-- Witness for the amended C8 at concrete inputs: a missing file degrades to
the empty catalog. -/
theorem load_recipes_shapes_witness :
    load_recipes_from_file .missing = .ok (.arr []) :=
  (load_recipes_shapes .missing).1 (Or.inl rfl)

/-- Counterexample to C8 as stated: a file that decodes to the JSON number 42
is neither a list nor an object with a `recipes` key; the claim requires
degradation to an empty catalog, but the code raises an uncaught
`ValueError`. -/
theorem load_recipes_raises_cex :
    load_recipes_from_file (.content (.num 42)) = .error .valueError ∧
    (Except.error PyErr.valueError : Except PyErr Json) ≠ .ok (.arr []) := by
  exact ⟨rfl, fun h => Except.noConfusion h⟩

/-- Amended C6: the reasoning client never raises — when the endpoint or key
is unset it returns the distinguished "not configured" string, and on any
transport failure, `raise_for_status` status, undecodable body, or body
without the `choices[0].message.content` path it returns the distinguished
"unavailable" string; a fully well-shaped success returns the `content`
field verbatim, which is a string whenever the service returns text but is
handed through unconverted otherwise. -/
theorem query_nim_failure_strings (ep ks : Bool) (resp : NimResponse) :
    ((ep && ks) = false →
      query_nim ep ks resp = .str ("NIM not configured. Using fallback.")) ∧
    ((ep && ks) = true → nimFailureCase resp = true →
      query_nim ep ks resp = .str ("NIM model unavailable. Using fallback.")) := by
  constructor
  · intro h; unfold query_nim; rw [h]; exact rfl
  · intro h hf
    unfold query_nim
    rw [h]
    cases resp with
    | transportError => exact rfl
    | response s body =>
      simp only [nimFailureCase] at hf
      by_cases hcond : (400 ≤ s ∧ s < 600)
      · simp [hcond]
      · simp only [decide_eq_false hcond, Bool.false_or] at hf
        cases body with
        | error e => simp [hcond]
        | ok d =>
          dsimp only at hf
          rcases hx : extractContent d with _ | c
          · simp [hcond, hx]
          · rw [hx] at hf
            simp at hf

/-- Witness for the amended C6 at a concrete input: a transport failure on a
configured client yields the distinguished failure string. -/
theorem query_nim_failure_strings_witness :
    query_nim true true .transportError = .str ("NIM model unavailable. Using fallback.") :=
  (query_nim_failure_strings true true .transportError).2 rfl rfl

/-- Counterexample to C6 as stated: a 200 response whose decoded body is
well-shaped but whose `content` field holds the JSON number 1 makes
`query_nim` return that number verbatim — not a string. -/
theorem query_nim_nonstring_cex :
    query_nim true true (.response 200 (.ok exNimOkBody)) = .num 1 ∧
    (∀ s, Json.num 1 ≠ Json.str s) :=
  ⟨rfl, fun _ h => Json.noConfusion h⟩

/-- C10: for a non-negative limit the `/recipes` endpoint returns exactly the
first `min(limit, |catalog|)` catalog records in order, each with images
attached; a negative limit is accepted without error and returns the catalog
with its last `|limit|` records removed (Python slice semantics of
`RECIPES[:limit]`), again with images attached. -/
theorem list_recipes_slice (catalog : List Recipe) (limit : Int) :
    (0 ≤ limit →
      list_recipes catalog limit =
        (catalog.take limit.toNat).map (fun r => (attach_recipe_images r).1) ∧
      (list_recipes catalog limit).length = min limit.toNat catalog.length) ∧
    (limit < 0 →
      list_recipes catalog limit =
        (catalog.take (catalog.length - (-limit).toNat)).map
          (fun r => (attach_recipe_images r).1)) := by
  constructor
  · intro h
    have hstop : pySliceStop catalog.length limit = min limit.toNat catalog.length := by
      unfold pySliceStop
      rw [if_neg (not_lt.mpr h)]
    constructor
    · unfold list_recipes pySliceTo
      rw [hstop]
      congr 1
      rcases le_total limit.toNat catalog.length with hle | hle
      · rw [min_eq_left hle]
      · rw [min_eq_right hle, List.take_length, List.take_of_length_le hle]
    · unfold list_recipes pySliceTo
      rw [List.length_map, List.length_take, hstop]
      omega
  · intro h
    unfold list_recipes pySliceTo pySliceStop
    rw [if_pos h]
    congr 2
    omega

/-- Witness for C10 at concrete inputs: the default limit 10 on a one-recipe
catalog and the negative limit -1. -/
theorem list_recipes_slice_witness :
    (list_recipes exCatalog 10 =
        (exCatalog.take ((10 : Int)).toNat).map (fun r => (attach_recipe_images r).1) ∧
      (list_recipes exCatalog 10).length = min ((10 : Int)).toNat exCatalog.length) ∧
    list_recipes exCatalog (-1) =
      (exCatalog.take (exCatalog.length - ((-(-1 : Int))).toNat)).map
        (fun r => (attach_recipe_images r).1) :=
  ⟨(list_recipes_slice exCatalog 10).1 (by decide),
   (list_recipes_slice exCatalog (-1)).2 (by decide)⟩

/-- Helper: a successful `random.choices` draw has exactly the requested
length. -/
theorem randomChoices_ok_length {α : Type} (pick : Nat → Nat) (pool : List α)
    (k : Nat) (l : List α) (h : randomChoices pick pool k = .ok l) :
    l.length = k := by
  unfold randomChoices at h
  split at h
  next hk => cases h; simp [hk]
  next hk =>
    split at h
    next => exact Except.noConfusion h
    next p ps => cases h; simp

/-- Helper: a successful padding step returns at least `needed` recipes. -/
theorem pad_selection_ok_length (pick : Nat → Nat) (pool : List Recipe)
    (needed : Nat) (sel l : List Recipe)
    (h : pad_selection pick pool needed sel = .ok l) : needed ≤ l.length := by
  unfold pad_selection at h
  split at h
  next hlt =>
    rcases hrc : randomChoices pick pool (needed - sel.length) with e | extra
    · rw [hrc] at h
      simp only [Except.map] at h
      exact Except.noConfusion h
    · rw [hrc] at h
      simp only [Except.map] at h
      cases h
      have hlen := randomChoices_ok_length pick pool (needed - sel.length) extra hrc
      rw [List.length_append, hlen]
      omega
  next hge => cases h; omega

/-- Helper: the per-day lengths of `build_plan` are those of the slices. -/
theorem build_plan_map_lengths (m d : Nat) (l : List Recipe) :
    (build_plan m d l).map (fun b => b.meals.length) =
      (List.range d).map (fun i => ((l.drop (i * m)).take m).length) := by
  unfold build_plan
  rw [List.map_map]
  rfl

/-- Helper: when the input holds at least `m * d` recipes, the `d` slices of
width `m` together hold exactly `m * d` recipes. -/
theorem sum_slice_lengths (m : Nat) :
    ∀ (d : Nat) (l : List Recipe), m * d ≤ l.length →
      ((List.range d).map (fun i => ((l.drop (i * m)).take m).length)).sum = m * d := by
  intro d
  induction d with
  | zero => intro l _; simp
  | succ n ih =>
    intro l h
    rw [List.range_succ, List.map_append, List.sum_append]
    have h1 : m * n ≤ l.length :=
      le_trans (Nat.mul_le_mul_left m (Nat.le_succ n)) h
    rw [ih l h1]
    simp only [List.map_cons, List.map_nil, List.sum_cons, List.sum_nil, Nat.add_zero]
    rw [List.length_take, List.length_drop]
    have hmin : m ≤ l.length - n * m := by
      have h2 : m * (n + 1) = m * n + m := Nat.mul_succ m n
      have h3 : m * n = n * m := Nat.mul_comm m n
      omega
    rw [min_eq_left hmin, Nat.mul_succ]

/-- C1: every `/plan-meals` request that does not end in an error outcome
returns a plan whose total recipe count across all day buckets equals
`meals_per_day * days`, whatever the reasoning outcome (`aiParse` covers
success, failure, and malformed or too-few identifiers): unresolvable ids
are dropped, a shortfall is padded by fallback sampling, and a surplus is
cut off by the day slicing. -/
theorem plan_meals_total (req : MealRequest) (catalog : List Recipe)
    (index : List (String × Vec)) (qe : Option Vec) (ai : Option Json)
    (p1 p2 : Nat → Nat) (resp : PlanResponse) (_hreq : ValidRequest req)
    (h : (plan_meals req catalog index qe ai p1 p2).result = .ok resp) :
    totalMeals resp = req.meals_per_day * req.days := by
  unfold plan_meals at h
  split at h
  · exact Except.noConfusion h
  · exact Except.noConfusion h
  · split at h
    · exact Except.noConfusion h
    · split at h
      · exact Except.noConfusion h
      next sel heq =>
        dsimp only at h
        injection h with h2
        subst h2
        unfold totalMeals
        dsimp only
        rw [build_plan_map_lengths]
        apply sum_slice_lengths
        rw [List.length_map]
        exact pad_selection_ok_length _ _ _ _ _ heq

/-- Witness for C1 at a concrete input: one meal for one day, reasoning
failed (`aiParse = none`), the plan still holds exactly one recipe. -/
theorem plan_meals_total_witness :
    ValidRequest exReq ∧
    (plan_meals exReq exCatalog exIndex (some [1]) none pick0 pick0).result = .ok exPlan ∧
    totalMeals exPlan = exReq.meals_per_day * exReq.days :=
  ⟨⟨by decide, by decide, by decide, by decide⟩, by decide,
   plan_meals_total exReq exCatalog exIndex (some [1]) none pick0 pick0 exPlan
     ⟨by decide, by decide, by decide, by decide⟩ (by decide)⟩

/-- Helper: inserting into the stable sort permutes with consing. -/
theorem insertScored_perm (x : Scored) (l : List Scored) :
    List.Perm (insertScored x l) (x :: l) := by
  induction l with
  | nil => exact List.Perm.refl _
  | cons y ys ih =>
    unfold insertScored
    split
    · exact List.Perm.refl _
    · exact (List.Perm.cons y ih).trans (List.Perm.swap x y ys)

/-- Helper: membership in an insertion step. -/
theorem mem_insertScored {x z : Scored} {l : List Scored} :
    z ∈ insertScored x l ↔ z = x ∨ z ∈ l := by
  rw [(insertScored_perm x l).mem_iff]
  simp

/-- Helper: the fold underlying `sortScored` permutes with appending. -/
theorem foldl_insertScored_perm :
    ∀ (l acc : List Scored),
      List.Perm (l.foldl (fun a x => insertScored x a) acc) (acc ++ l) := by
  intro l
  induction l with
  | nil => intro acc; simp
  | cons x xs ih =>
    intro acc
    rw [List.foldl_cons]
    refine (ih (insertScored x acc)).trans ?_
    refine (((insertScored_perm x acc).append_right xs).trans ?_)
    exact List.perm_middle.symm
/-- Helper: the stable sort is a permutation of its input. -/
theorem sortScored_perm (l : List Scored) : List.Perm (sortScored l) l := by
  unfold sortScored
  simpa using foldl_insertScored_perm l []

/-- Helper: the exact comparator agrees with the real score ordering on
entries with positive norms. -/
theorem sGT_true_iff {x y : Scored} (hx : 0 < x.2.2) (hy : 0 < y.2.2) :
    sGT x y = true ↔ keyR y.2 < keyR x.2 := by
  unfold sGT keyR
  simp only [decide_eq_true_eq]
  rw [div_lt_div_iff₀ (by exact_mod_cast hy : (0:ℝ) < ((y.2.2 : ℤ) : ℝ))
    (by exact_mod_cast hx : (0:ℝ) < ((x.2.2 : ℤ) : ℝ))]
  constructor
  · intro h; exact_mod_cast h
  · intro h; exact_mod_cast h

/-- Helper: failure of the exact comparator means a real score at most the
other, on entries with positive norms. -/
theorem sGT_false_iff {x y : Scored} (hx : 0 < x.2.2) (hy : 0 < y.2.2) :
    sGT x y = false ↔ keyR x.2 ≤ keyR y.2 := by
  rw [← not_lt, ← sGT_true_iff hx hy]
  simp

/-- Helper: `t * |t|` is strictly monotone on the reals. -/
theorem mulAbs_strictMono : StrictMono (fun t : ℝ => t * |t|) := by
  intro a b hab
  show a * |a| < b * |b|
  rcases le_or_lt 0 a with ha | ha
  · have hb : 0 ≤ b := le_of_lt (lt_of_le_of_lt ha hab)
    rw [abs_of_nonneg ha, abs_of_nonneg hb]
    exact mul_self_lt_mul_self ha hab
  · rcases le_or_lt 0 b with hb | hb
    · have h1 : a * |a| < 0 := by rw [abs_of_neg ha]; nlinarith
      have h2 : 0 ≤ b * |b| := by rw [abs_of_nonneg hb]; positivity
      linarith
    · rw [abs_of_neg ha, abs_of_neg hb]
      nlinarith

/-- Helper: the signed square of `d / sqrt n` is the score value `d*|d|/n`. -/
theorem rsim_mulAbs {d n : ℤ} (hn : 0 < n) :
    rsim d n * |rsim d n| = keyR (d, n) := by
  unfold rsim keyR
  have hnr : (0:ℝ) < (n : ℝ) := by exact_mod_cast hn
  have hs : 0 < Real.sqrt (n : ℝ) := Real.sqrt_pos.mpr hnr
  rw [abs_div, abs_of_pos hs, div_mul_div_comm, Real.mul_self_sqrt (le_of_lt hnr)]

/-- Helper: comparing `d / sqrt n` values is comparing score values. -/
theorem rsim_lt_iff {d1 n1 d2 n2 : ℤ} (h1 : 0 < n1) (h2 : 0 < n2) :
    rsim d1 n1 < rsim d2 n2 ↔ keyR (d1, n1) < keyR (d2, n2) := by
  rw [← rsim_mulAbs h1, ← rsim_mulAbs h2]
  exact (mulAbs_strictMono.lt_iff_lt).symm

/-- Helper: cosine similarity is `d / sqrt n` scaled by the positive
constant `1 / norm(q)`. -/
theorem cosSimR_eq_div (q v : Vec) :
    cosSimR q v = rsim (dotQ q v) (dotQ v v) / Real.sqrt ((dotQ q q : ℤ) : ℝ) := by
  unfold cosSimR rsim
  rw [div_div, mul_comm]

/-- Helper: for a fixed query with positive norm, comparing cosine
similarities is comparing score values. -/
theorem cosSimR_lt_iff {q va vb : Vec} (hq : 0 < dotQ q q)
    (ha : 0 < dotQ va va) (hb : 0 < dotQ vb vb) :
    cosSimR q va < cosSimR q vb ↔
      keyR (dotQ q va, dotQ va va) < keyR (dotQ q vb, dotQ vb vb) := by
  rw [cosSimR_eq_div, cosSimR_eq_div]
  have hs : 0 < Real.sqrt ((dotQ q q : ℤ) : ℝ) :=
    Real.sqrt_pos.mpr (by exact_mod_cast hq)
  rw [div_lt_div_iff_of_pos_right hs]
  exact rsim_lt_iff ha hb

/-- Helper: for a fixed query with positive norm, equal cosine similarities
are equal score values. -/
theorem cosSimR_eq_iff {q va vb : Vec} (hq : 0 < dotQ q q)
    (ha : 0 < dotQ va va) (hb : 0 < dotQ vb vb) :
    cosSimR q va = cosSimR q vb ↔
      keyR (dotQ q va, dotQ va va) = keyR (dotQ q vb, dotQ vb vb) := by
  constructor
  · intro h
    by_contra hne
    rcases lt_or_gt_of_ne hne with hlt | hgt
    · have hc := (cosSimR_lt_iff hq ha hb).mpr hlt
      rw [h] at hc
      exact lt_irrefl _ hc
    · have hc := (cosSimR_lt_iff hq hb ha).mpr hgt
      rw [h] at hc
      exact lt_irrefl _ hc
  · intro h
    by_contra hne
    rcases lt_or_gt_of_ne hne with hlt | hgt
    · have hc := (cosSimR_lt_iff hq ha hb).mp hlt
      rw [h] at hc
      exact lt_irrefl _ hc
    · have hc := (cosSimR_lt_iff hq hb ha).mp hgt
      rw [h] at hc
      exact lt_irrefl _ hc

/-- Helper: inserting an entry into a sorted-and-stable accumulator whose
members all precede it in `L` preserves the sorted-and-stable invariant. -/
theorem insertScored_pairwise {L : List Scored} {x : Scored} {acc : List Scored}
    (hx : 0 < x.2.2) (hacc : ∀ y ∈ acc, 0 < y.2.2)
    (hbefore : ∀ y ∈ acc, [y, x].Sublist L)
    (hpair : acc.Pairwise (RL L)) :
    (insertScored x acc).Pairwise (RL L) := by
  induction acc with
  | nil => simp [insertScored, List.pairwise_singleton]
  | cons y ys ih =>
    rw [List.pairwise_cons] at hpair
    obtain ⟨hy_rest, hpair_ys⟩ := hpair
    have hy_pos : 0 < y.2.2 := hacc y (by simp)
    unfold insertScored
    split
    next hgt =>
      have hky : keyR y.2 < keyR x.2 := (sGT_true_iff hx hy_pos).mp hgt
      rw [List.pairwise_cons]
      constructor
      · intro z hz
        rcases List.mem_cons.mp hz with rfl | hz2
        · exact Or.inl hky
        · rcases hy_rest z hz2 with hlt | ⟨heq, _⟩
          · exact Or.inl (lt_trans hlt hky)
          · exact Or.inl (by rw [← heq]; exact hky)
      · rw [List.pairwise_cons]
        exact ⟨hy_rest, hpair_ys⟩
    next hngt =>
      have hfalse : sGT x y = false := by
        cases hb : sGT x y
        · rfl
        · exact absurd hb hngt
      have hkxy : keyR x.2 ≤ keyR y.2 := (sGT_false_iff hx hy_pos).mp hfalse
      rw [List.pairwise_cons]
      constructor
      · intro z hz
        rcases mem_insertScored.mp hz with rfl | hz2
        · rcases lt_or_eq_of_le hkxy with hlt | heq
          · exact Or.inl hlt
          · exact Or.inr ⟨heq.symm, hbefore y (by simp)⟩
        · exact hy_rest z hz2
      · exact ih (fun z hz => hacc z (by simp [hz]))
          (fun z hz => hbefore z (by simp [hz])) hpair_ys

/-- Helper: the fold underlying `sortScored` preserves the sorted-and-stable
invariant while consuming the remaining entries in order. -/
theorem foldl_insertScored_pairwise {L : List Scored} :
    ∀ (rest acc : List Scored),
      (∀ y ∈ acc, 0 < y.2.2) →
      (∀ z ∈ rest, 0 < z.2.2) →
      (∀ y ∈ acc, ∀ z ∈ rest, [y, z].Sublist L) →
      (∀ a b : Scored, [a, b].Sublist rest → [a, b].Sublist L) →
      acc.Pairwise (RL L) →
      (rest.foldl (fun a x => insertScored x a) acc).Pairwise (RL L) := by
  intro rest
  induction rest with
  | nil =>
    intro acc _ _ _ _ hpair
    simpa using hpair
  | cons x xs ih =>
    intro acc hacc hrest hcross hpairs hpair
    rw [List.foldl_cons]
    apply ih
    · intro y hy
      rcases mem_insertScored.mp hy with rfl | hy2
      · exact hrest y (by simp)
      · exact hacc y hy2
    · intro z hz
      exact hrest z (by simp [hz])
    · intro y hy z hz
      rcases mem_insertScored.mp hy with rfl | hy2
      · exact hpairs y z (List.cons_sublist_cons.mpr (List.singleton_sublist.mpr hz))
      · exact hcross y hy2 z (by simp [hz])
    · intro a b hab
      exact hpairs a b (List.Sublist.cons x hab)
    · exact insertScored_pairwise (hrest x (by simp)) hacc
        (fun y hy => hcross y hy x (by simp)) hpair

/-- Helper: the stable sort of a positively-normed scored list is sorted by
strictly decreasing real score with ties in input order. -/
theorem sortScored_pairwise (l : List Scored) (hpos : ∀ x ∈ l, 0 < x.2.2) :
    (sortScored l).Pairwise (RL l) := by
  unfold sortScored
  exact foldl_insertScored_pairwise l [] (by simp) hpos (by simp)
    (fun a b hab => hab) (by simp)

/-- Helper: two distinct members of a list occur in one of the two orders. -/
theorem two_mem_pair_sublist {α : Type} {l : List α} {a b : α}
    (ha : a ∈ l) (hb : b ∈ l) (hne : a ≠ b) :
    [a, b].Sublist l ∨ [b, a].Sublist l := by
  induction l with
  | nil => cases ha
  | cons c t ih =>
    rcases List.mem_cons.mp ha with rfl | hat
    · have hbt : b ∈ t := by
        rcases List.mem_cons.mp hb with rfl | h
        · exact absurd rfl hne
        · exact h
      exact Or.inl (List.cons_sublist_cons.mpr (List.singleton_sublist.mpr hbt))
    · rcases List.mem_cons.mp hb with rfl | hbt
      · exact Or.inr (List.cons_sublist_cons.mpr (List.singleton_sublist.mpr hat))
      · rcases ih hat hbt with h | h
        · exact Or.inl (List.Sublist.cons c h)
        · exact Or.inr (List.Sublist.cons c h)

/-- Helper: in a duplicate-free list a two-element subsequence occurs in only
one order. -/
theorem pair_sublist_antisymm {α : Type} {l : List α} (hnd : l.Nodup) {a b : α}
    (h1 : [a, b].Sublist l) (h2 : [b, a].Sublist l) : a = b := by
  induction l with
  | nil => cases h1
  | cons c t ih =>
    rw [List.nodup_cons] at hnd
    obtain ⟨hc, hndt⟩ := hnd
    cases h1 with
    | cons _ h1t =>
      cases h2 with
      | cons _ h2t => exact ih hndt h1t h2t
      | cons₂ h2t =>
        exact absurd (h1t.subset (by simp)) hc
    | cons₂ h1t =>
      cases h2 with
      | cons _ h2t =>
        exact absurd (h2t.subset (by simp)) hc
      | cons₂ h2t => rfl

/-- Helper: in an index with duplicate-free keys, the key determines the
stored vector. -/
theorem mem_keys_unique {index : List (String × Vec)}
    (h : (index.map Prod.fst).Nodup) {k : String} {v1 v2 : Vec}
    (h1 : (k, v1) ∈ index) (h2 : (k, v2) ∈ index) : v1 = v2 := by
  induction index with
  | nil => cases h1
  | cons p t ih =>
    rw [List.map_cons, List.nodup_cons] at h
    obtain ⟨hp, ht⟩ := h
    rcases List.mem_cons.mp h1 with h1e | h1t
    · rcases List.mem_cons.mp h2 with h2e | h2t
      · rw [← h1e] at h2e
        injection h2e with _ hv
        exact hv.symm
      · rw [← h1e] at hp
        exact absurd (List.mem_map.mpr ⟨(k, v2), h2t, rfl⟩) hp
    · rcases List.mem_cons.mp h2 with h2e | h2t
      · rw [← h2e] at hp
        exact absurd (List.mem_map.mpr ⟨(k, v1), h1t, rfl⟩) hp
      · exact ih ht h1t h2t

/-- Helper: scoring preserves the sequence of recipe ids. -/
theorem scored_map_fst (q : Vec) (index : List (String × Vec)) :
    (index.map (fun p => (p.1, dotQ q p.2, dotQ p.2 p.2))).map Prod.fst =
      index.map Prod.fst := by
  rw [List.map_map]
  rfl

/-- C4: for every query embedding and `top_k`, the index query returns at
most `top_k` identifiers, ordered by real cosine similarity between the
query vector and each stored vector, descending, with equal similarities
ordered by insertion order of the index (the stable sort).  Hypotheses: the
dict keys are unique (Python dicts guarantee this), and the query and stored
vectors have positive norms (on a zero-norm vector the Python float code
divides by zero, which exact arithmetic cannot express). -/
theorem find_similar_ranking (q : Vec) (index : List (String × Vec)) (k : Nat)
    (out : List String) (hnodup : (index.map Prod.fst).Nodup)
    (hq : 0 < dotQ q q) (hpos : ∀ p ∈ index, 0 < dotQ p.2 p.2)
    (hout : find_similar_recipes (some q) index k = .ok out) :
    out.length ≤ k ∧ out.Pairwise (RankedBy index q) := by
  cases index with
  | nil =>
    unfold find_similar_recipes at hout
    injection hout with h
    subst h
    exact ⟨by simp, List.Pairwise.nil⟩
  | cons i0 irest =>
    unfold find_similar_recipes at hout
    dsimp only at hout
    split at hout
    next hdim => exact Except.noConfusion hout
    next hdim =>
      injection hout with hout
      subst hout
      constructor
      · rw [List.length_map, List.length_take]
        exact min_le_left _ _
      · rw [List.pairwise_iff_forall_sublist]
        intro a b hab
        rw [List.sublist_map_iff] at hab
        obtain ⟨l2, hl2, heq2⟩ := hab
        cases l2 with
        | nil => simp at heq2
        | cons pa l3 =>
          cases l3 with
          | nil => simp at heq2
          | cons pb l4 =>
            cases l4 with
            | cons pc l5 => simp at heq2
            | nil =>
              simp only [List.map_cons, List.map_nil] at heq2
              injection heq2 with ha2 heq3
              injection heq3 with hb2 _
              subst ha2
              subst hb2
              have hposs : ∀ x ∈ (i0 :: irest).map
                  (fun p => (p.1, dotQ q p.2, dotQ p.2 p.2)), 0 < x.2.2 := by
                intro x hx
                obtain ⟨p, hp, rfl⟩ := List.mem_map.mp hx
                exact hpos p hp
              have hsub : [pa, pb].Sublist
                  (sortScored ((i0 :: irest).map
                    (fun p => (p.1, dotQ q p.2, dotQ p.2 p.2)))) :=
                hl2.trans (List.take_sublist k _)
              have hRL := List.pairwise_iff_forall_sublist.mp
                (sortScored_pairwise _ hposs) hsub
              have hpa_mem : pa ∈ (i0 :: irest).map
                  (fun p => (p.1, dotQ q p.2, dotQ p.2 p.2)) :=
                (sortScored_perm _).subset (hsub.subset (by simp))
              have hpb_mem : pb ∈ (i0 :: irest).map
                  (fun p => (p.1, dotQ q p.2, dotQ p.2 p.2)) :=
                (sortScored_perm _).subset (hsub.subset (by simp))
              obtain ⟨ea, hea, hpae⟩ := List.mem_map.mp hpa_mem
              obtain ⟨eb, heb, hpbe⟩ := List.mem_map.mp hpb_mem
              intro va vb hva hvb
              have hfa : pa.1 = ea.1 := by rw [← hpae]
              have hfb : pb.1 = eb.1 := by rw [← hpbe]
              have hva_eq : va = ea.2 := by
                apply mem_keys_unique hnodup hva
                rw [hfa]
                exact hea
              have hvb_eq : vb = eb.2 := by
                apply mem_keys_unique hnodup hvb
                rw [hfb]
                exact heb
              have hpa2 : pa.2 = (dotQ q ea.2, dotQ ea.2 ea.2) := by rw [← hpae]
              have hpb2 : pb.2 = (dotQ q eb.2, dotQ eb.2 eb.2) := by rw [← hpbe]
              rcases hRL with hlt | ⟨heqk, hins⟩
              · left
                rw [hva_eq, hvb_eq]
                rw [cosSimR_lt_iff hq (hpos eb heb) (hpos ea hea)]
                rw [← hpa2, ← hpb2]
                exact hlt
              · right
                constructor
                · rw [hva_eq, hvb_eq]
                  rw [cosSimR_eq_iff hq (hpos ea hea) (hpos eb heb)]
                  rw [← hpa2, ← hpb2]
                  exact heqk
                · have hmap := hins.map Prod.fst
                  simp only [List.map_cons, List.map_nil] at hmap
                  rw [scored_map_fst] at hmap
                  exact hmap

/-- Witness for C4 at a concrete input: the entries `("a", [1])` and
`("b", [2])` have equal cosine similarity to the query `[1]`, and the result
keeps them in insertion order. -/
theorem find_similar_ranking_witness :
    ((exIndex2.map Prod.fst).Nodup ∧ 0 < dotQ [1] [1] ∧
      (∀ p ∈ exIndex2, 0 < dotQ p.2 p.2) ∧
      find_similar_recipes (some [1]) exIndex2 3 = .ok ["a", "b"]) ∧
    (["a", "b"].length ≤ 3 ∧ ["a", "b"].Pairwise (RankedBy exIndex2 [1])) :=
  ⟨⟨by decide, by decide, by decide, by decide⟩,
   find_similar_ranking [1] exIndex2 3 ["a", "b"] (by decide) (by decide)
     (by decide) (by decide)⟩

/-- Helper: on an index with duplicate-free keys, a successful query returns
duplicate-free identifiers, each a key of the index. -/
theorem find_similar_mem_nodup (q : Vec) (idx : List (String × Vec)) (k : Nat)
    (out : List String) (hnd : (idx.map Prod.fst).Nodup)
    (hout : find_similar_recipes (some q) idx k = .ok out) :
    out.Nodup ∧ ∀ s ∈ out, s ∈ idx.map Prod.fst := by
  cases idx with
  | nil =>
    unfold find_similar_recipes at hout
    injection hout with h
    subst h
    exact ⟨List.nodup_nil, by simp⟩
  | cons i0 irest =>
    unfold find_similar_recipes at hout
    dsimp only at hout
    split at hout
    next hdim => exact Except.noConfusion hout
    next hdim =>
      injection hout with hout
      subst hout
      have hperm : List.Perm
          ((sortScored ((i0 :: irest).map
            (fun p => (p.1, dotQ q p.2, dotQ p.2 p.2)))).map Prod.fst)
          ((i0 :: irest).map Prod.fst) := by
        have h1 := (sortScored_perm ((i0 :: irest).map
          (fun p => (p.1, dotQ q p.2, dotQ p.2 p.2)))).map Prod.fst
        rw [scored_map_fst] at h1
        exact h1
      have hnd2 : ((sortScored ((i0 :: irest).map
          (fun p => (p.1, dotQ q p.2, dotQ p.2 p.2)))).map Prod.fst).Nodup :=
        hperm.symm.nodup hnd
      constructor
      · exact List.Nodup.sublist
          (List.Sublist.map Prod.fst (List.take_sublist k _)) hnd2
      · intro s hs
        obtain ⟨p, hp, rfl⟩ := List.mem_map.mp hs
        have hp2 : p ∈ sortScored ((i0 :: irest).map
            (fun p => (p.1, dotQ q p.2, dotQ p.2 p.2))) :=
          (List.take_sublist k _).subset hp
        exact hperm.subset (List.mem_map.mpr ⟨p, hp2, rfl⟩)

/-- Helper: keys of a Python dict stay duplicate-free under assignment. -/
theorem mem_dictInsert_keys (l : List (String × Vec)) (k : String) (v : Vec)
    (x : String) :
    x ∈ (dictInsert l k v).map Prod.fst ↔ x ∈ l.map Prod.fst ∨ x = k := by
  induction l with
  | nil => simp [dictInsert]
  | cons p t ih =>
    obtain ⟨k0, v0⟩ := p
    unfold dictInsert
    split
    next heq =>
      subst heq
      simp only [List.map_cons, List.mem_cons]
      tauto
    next hne =>
      simp only [List.map_cons, List.mem_cons, ih]
      tauto

/-- Helper: `dictInsert` preserves duplicate-freeness of the keys. -/
theorem dictInsert_keys_nodup (l : List (String × Vec)) (k : String) (v : Vec)
    (h : (l.map Prod.fst).Nodup) : ((dictInsert l k v).map Prod.fst).Nodup := by
  induction l with
  | nil => simp [dictInsert]
  | cons p t ih =>
    obtain ⟨k0, v0⟩ := p
    rw [List.map_cons, List.nodup_cons] at h
    obtain ⟨hk0, ht⟩ := h
    unfold dictInsert
    split
    next heq =>
      subst heq
      rw [List.map_cons, List.nodup_cons]
      exact ⟨hk0, ht⟩
    next hne =>
      rw [List.map_cons, List.nodup_cons]
      constructor
      · rw [mem_dictInsert_keys]
        rintro (hmem | rfl)
        · exact hk0 hmem
        · exact hne rfl
      · exact ih ht

/-- Helper: the startup-built index has duplicate-free keys. -/
theorem buildIndex_keys_nodup (entries : List (String × Option Vec)) :
    ((buildIndex entries).map Prod.fst).Nodup := by
  have aux : ∀ (es : List (String × Option Vec)) (acc : List (String × Vec)),
      (acc.map Prod.fst).Nodup →
      ((es.foldl (fun idx e => (add_recipe_embedding idx e.1 e.2).1) acc).map
        Prod.fst).Nodup := by
    intro es
    induction es with
    | nil =>
      intro acc h
      simpa using h
    | cons e t ih =>
      intro acc h
      rw [List.foldl_cons]
      apply ih
      obtain ⟨rid, emb⟩ := e
      cases emb with
      | none => exact h
      | some v => exact dictInsert_keys_nodup acc rid v h
  exact aux entries [] (by simp)

/-- C9: on an index built by the startup insertion loop, every identifier a
query returns is a key of the index (it was inserted by a successful
`add_recipe_embedding` call), and no identifier repeats in one result. -/
theorem find_similar_ids_from_built_index (entries : List (String × Option Vec))
    (qe : Option Vec) (k : Nat) (out : List String)
    (hout : find_similar_recipes qe (buildIndex entries) k = .ok out) :
    out.Nodup ∧ ∀ s ∈ out, s ∈ (buildIndex entries).map Prod.fst := by
  cases qe with
  | none =>
    unfold find_similar_recipes at hout
    injection hout with h
    subst h
    exact ⟨List.nodup_nil, by simp⟩
  | some q =>
    exact find_similar_mem_nodup q (buildIndex entries) k out
      (buildIndex_keys_nodup entries) hout

/-- Witness for C9 at a concrete input: two successful insertions around one
failed embedding call; the query returns both inserted ids, without
duplicates. -/
theorem find_similar_ids_from_built_index_witness :
    find_similar_recipes (some [1]) (buildIndex exEntries) 3 = .ok ["a", "b"] ∧
    (["a", "b"].Nodup ∧ ∀ s ∈ ["a", "b"], s ∈ (buildIndex exEntries).map Prod.fst) :=
  ⟨by decide,
   find_similar_ids_from_built_index exEntries (some [1]) 3 ["a", "b"] (by decide)⟩

end Culinairy
